import Mathlib

/-!
Verification of the vector-tiles style converter core
(`plugin/style_converter/core/__init__.py`).

Python strings are modelled as `List Char` (`PyStr`), Python floats as exact
rationals (`PyRat`), Python `None`/values as the inductive `Val`, and Python dicts as
insertion-ordered association lists.  Fallible Python code (KeyError,
IndexError, TypeError, ValueError, unbounded recursion) is modelled with
`Option`/`Except`; recursion that Python bounds only by the interpreter's
recursion limit takes an explicit fuel argument.
-/

namespace VTStyle

abbrev PyStr := List Char

/-- Python `str.join` on a comma: `",".join(parts)`. -/
def joinWith (sep : PyStr) (parts : List PyStr) : PyStr :=
  List.intercalate sep parts

/-- Python `str.replace(old, "")` (every call site replaces with the empty
string).  Scans left to right removing non-overlapping occurrences of the
nonempty pattern `p0 :: pr`; the fuel argument only makes the recursion
structural and is always initialised to the string length, which suffices. -/
def removeAllAux (p0 : Char) (pr : PyStr) : Nat → PyStr → PyStr
  | _, [] => []
  | 0, s => s
  | n + 1, c :: rest =>
    if (p0 :: pr).isPrefixOf (c :: rest) then removeAllAux p0 pr n (rest.drop pr.length)
    else c :: removeAllAux p0 pr n rest

def removeAll (p0 : Char) (pr : PyStr) (s : PyStr) : PyStr :=
  removeAllAux p0 pr s.length s

def isDigitCh (c : Char) : Bool := decide ('0' ≤ c) && decide (c ≤ '9')

def digitVal (c : Char) : Nat := c.toNat - '0'.toNat

def digitsToNat (s : PyStr) : Nat := s.foldl (fun n c => 10 * n + digitVal c) 0

/-- An exact rational standing in for a Python float; kept unnormalised (no
gcd) so that every arithmetic operation evaluates by kernel reduction.  The
denominator is positive for every value built by the functions below.  The
float rounding Python performs is not modelled: on every input exercised
here the float computations are exact. -/
structure PyRat where
  num : Int
  den : Nat
deriving DecidableEq

instance : OfNat PyRat n := ⟨⟨n, 1⟩⟩

def PyRat.add (a b : PyRat) : PyRat := ⟨a.num * b.den + b.num * a.den, a.den * b.den⟩

def PyRat.sub (a b : PyRat) : PyRat := ⟨a.num * b.den - b.num * a.den, a.den * b.den⟩

def PyRat.mul (a b : PyRat) : PyRat := ⟨a.num * b.num, a.den * b.den⟩

/-- Division; division by a zero value is never performed by the call sites
(all divisors are nonzero constants). -/
def PyRat.div (a b : PyRat) : PyRat :=
  if b.num < 0 then ⟨-(a.num * b.den), a.den * b.num.natAbs⟩
  else ⟨a.num * b.den, a.den * b.num.natAbs⟩

def PyRat.neg (a : PyRat) : PyRat := ⟨-a.num, a.den⟩

instance : Add PyRat := ⟨PyRat.add⟩
instance : Sub PyRat := ⟨PyRat.sub⟩
instance : Mul PyRat := ⟨PyRat.mul⟩
instance : Div PyRat := ⟨PyRat.div⟩
instance : Neg PyRat := ⟨PyRat.neg⟩

/-- Value-level comparisons (valid for positive denominators). -/
def PyRat.lt (a b : PyRat) : Prop := a.num * b.den < b.num * a.den

def PyRat.le (a b : PyRat) : Prop := a.num * b.den ≤ b.num * a.den

instance : LT PyRat := ⟨PyRat.lt⟩
instance : LE PyRat := ⟨PyRat.le⟩

instance (a b : PyRat) : Decidable (a < b) :=
  inferInstanceAs (Decidable (a.num * b.den < b.num * a.den))

instance (a b : PyRat) : Decidable (a ≤ b) :=
  inferInstanceAs (Decidable (a.num * b.den ≤ b.num * a.den))

/-- Value equality of the unnormalised representation. -/
def PyRat.qeq (a b : PyRat) : Prop := a.num * b.den = b.num * a.den

instance (a b : PyRat) : Decidable (a.qeq b) :=
  inferInstanceAs (Decidable (a.num * b.den = b.num * a.den))

def PyRat.floorI (a : PyRat) : Int := Int.fdiv a.num a.den

/-- Python `int()` applied to a float: truncation toward zero. -/
def pyTrunc (q : PyRat) : Int := q.num / (q.den : Int)

/-- Python `round()` (one argument): nearest integer, ties to even. -/
def pyRound (q : PyRat) : Int :=
  let f : Int := q.floorI
  let r : PyRat := q - (⟨f, 1⟩ : PyRat)
  if r < (⟨1, 2⟩ : PyRat) then f
  else if (⟨1, 2⟩ : PyRat) < r then f + 1
  else if f % 2 = 0 then f else f + 1

/-- Python `float(s)` on plain decimal literals: optional sign, digits,
optional fractional part.  Exponents, `inf`/`nan` and surrounding whitespace
are not produced by any caller in this file and are not modelled. -/
def pyFloat (s : PyStr) : Option PyRat :=
  let core : PyStr → Option PyRat := fun body =>
    match body.splitOn '.' with
    | [ip] =>
      if ip ≠ [] ∧ ip.all isDigitCh then some ⟨digitsToNat ip, 1⟩ else none
    | [ip, fp] =>
      if (ip ≠ [] ∨ fp ≠ []) ∧ ip.all isDigitCh ∧ fp.all isDigitCh then
        some ⟨(digitsToNat ip) * 10 ^ fp.length + digitsToNat fp, 10 ^ fp.length⟩
      else none
    | _ => none
  match s with
  | '-' :: rest => (core rest).map PyRat.neg
  | '+' :: rest => core rest
  | _ => core s

/-- CPython `colorsys._v(m1, m2, hue)`; the float constants ONE_THIRD etc. are
modelled by the exact rationals they approximate. -/
def hlsAux (m1 m2 hue : PyRat) : PyRat :=
  let h : PyRat := hue - (⟨hue.floorI, 1⟩ : PyRat)
  if h < (⟨1, 6⟩ : PyRat) then m1 + (m2 - m1) * h * 6
  else if h < (⟨1, 2⟩ : PyRat) then m2
  else if h < (⟨2, 3⟩ : PyRat) then m1 + (m2 - m1) * ((⟨2, 3⟩ : PyRat) - h) * 6
  else m1

/-- CPython `colorsys.hls_to_rgb`. -/
def hls_to_rgb (h l s : PyRat) : PyRat × PyRat × PyRat :=
  if s.qeq 0 then (l, l, l)
  else
    let m2 : PyRat := if l ≤ (⟨1, 2⟩ : PyRat) then l * (1 + s) else l + s - l * s
    let m1 : PyRat := 2 * l - m2
    (hlsAux m1 m2 (h + (⟨1, 3⟩ : PyRat)), hlsAux m1 m2 h, hlsAux m1 m2 (h - (⟨1, 3⟩ : PyRat)))

/-- Decimal rendering of a natural number, as Python `str` of an int. -/
def natToChars (n : Nat) : PyStr := Nat.toDigits 10 n

/-- Decimal rendering of an integer, as Python `str` of an int. -/
def intToChars (i : Int) : PyStr :=
  if i < 0 then '-' :: natToChars i.natAbs else natToChars i.toNat

/-- A Python value as it appears in the style JSON. -/
inductive Val where
  | null
  | b (v : Bool)
  | num (q : PyRat)
  | s (str : PyStr)
  | list (elems : List Val)
  | dict (entries : List (PyStr × Val))

mutual

def Val.decEq : (a b : Val) → Decidable (a = b)
  | .null, .null => isTrue rfl
  | .null, .b _ => isFalse (fun h => nomatch h)
  | .null, .num _ => isFalse (fun h => nomatch h)
  | .null, .s _ => isFalse (fun h => nomatch h)
  | .null, .list _ => isFalse (fun h => nomatch h)
  | .null, .dict _ => isFalse (fun h => nomatch h)
  | .b _, .null => isFalse (fun h => nomatch h)
  | .b x, .b y =>
    if h : x = y then isTrue (by rw [h]) else isFalse (fun hh => h (by injection hh))
  | .b _, .num _ => isFalse (fun h => nomatch h)
  | .b _, .s _ => isFalse (fun h => nomatch h)
  | .b _, .list _ => isFalse (fun h => nomatch h)
  | .b _, .dict _ => isFalse (fun h => nomatch h)
  | .num _, .null => isFalse (fun h => nomatch h)
  | .num _, .b _ => isFalse (fun h => nomatch h)
  | .num x, .num y =>
    if h : x = y then isTrue (by rw [h]) else isFalse (fun hh => h (by injection hh))
  | .num _, .s _ => isFalse (fun h => nomatch h)
  | .num _, .list _ => isFalse (fun h => nomatch h)
  | .num _, .dict _ => isFalse (fun h => nomatch h)
  | .s _, .null => isFalse (fun h => nomatch h)
  | .s _, .b _ => isFalse (fun h => nomatch h)
  | .s _, .num _ => isFalse (fun h => nomatch h)
  | .s x, .s y =>
    if h : x = y then isTrue (by rw [h]) else isFalse (fun hh => h (by injection hh))
  | .s _, .list _ => isFalse (fun h => nomatch h)
  | .s _, .dict _ => isFalse (fun h => nomatch h)
  | .list _, .null => isFalse (fun h => nomatch h)
  | .list _, .b _ => isFalse (fun h => nomatch h)
  | .list _, .num _ => isFalse (fun h => nomatch h)
  | .list _, .s _ => isFalse (fun h => nomatch h)
  | .list xs, .list ys =>
    match Val.decEqVL xs ys with
    | isTrue h => isTrue (by rw [h])
    | isFalse h => isFalse (fun hh => h (by injection hh))
  | .list _, .dict _ => isFalse (fun h => nomatch h)
  | .dict _, .null => isFalse (fun h => nomatch h)
  | .dict _, .b _ => isFalse (fun h => nomatch h)
  | .dict _, .num _ => isFalse (fun h => nomatch h)
  | .dict _, .s _ => isFalse (fun h => nomatch h)
  | .dict _, .list _ => isFalse (fun h => nomatch h)
  | .dict xs, .dict ys =>
    match Val.decEqEL xs ys with
    | isTrue h => isTrue (by rw [h])
    | isFalse h => isFalse (fun hh => h (by injection hh))

def Val.decEqVL : (a b : List Val) → Decidable (a = b)
  | [], [] => isTrue rfl
  | [], _ :: _ => isFalse (fun h => nomatch h)
  | _ :: _, [] => isFalse (fun h => nomatch h)
  | x :: xs, y :: ys =>
    match Val.decEq x y with
    | isTrue h1 =>
      match Val.decEqVL xs ys with
      | isTrue h2 => isTrue (by rw [h1, h2])
      | isFalse h2 => isFalse (fun hh => h2 (by injection hh))
    | isFalse h1 => isFalse (fun hh => h1 (by injection hh))

def Val.decEqEL : (a b : List (PyStr × Val)) → Decidable (a = b)
  | [], [] => isTrue rfl
  | [], _ :: _ => isFalse (fun h => nomatch h)
  | _ :: _, [] => isFalse (fun h => nomatch h)
  | (k1, v1) :: xs, (k2, v2) :: ys =>
    if hk : k1 = k2 then
      match Val.decEq v1 v2 with
      | isTrue h1 =>
        match Val.decEqEL xs ys with
        | isTrue h2 => isTrue (by rw [hk, h1, h2])
        | isFalse h2 => isFalse (fun hh => h2 (by injection hh))
      | isFalse h1 =>
        isFalse (fun hh => by
          injection hh with hh1 hh2
          exact h1 (congrArg Prod.snd hh1))
    else
      isFalse (fun hh => by
        injection hh with hh1 hh2
        exact hk (congrArg Prod.fst hh1))

end

instance : DecidableEq Val := Val.decEq

/-- Python truthiness. -/
def Val.truthy : Val → Bool
  | .null => false
  | .b v => v
  | .num q => decide (q.num ≠ 0)
  | .s str => decide (str ≠ [])
  | .list es => decide (es ≠ [])
  | .dict es => decide (es ≠ [])

abbrev Dict := List (PyStr × Val)

/-- First-occurrence lookup in an insertion-ordered Python dict. -/
def dictGet? : Dict → PyStr → Option Val
  | [], _ => none
  | (k', v) :: rest, k => if k' = k then some v else dictGet? rest k

/-- Python `d[k] = v`: replace the value of an existing key in place, else
append the new key at the end (insertion order). -/
def dictSet : Dict → PyStr → Val → Dict
  | [], k, v => [(k, v)]
  | (k', v') :: rest, k, v =>
    if k' = k then (k', v) :: rest else (k', v') :: dictSet rest k v

def hasKeyD (d : Dict) (k : PyStr) : Bool := (dictGet? d k).isSome

/-- `_get_value_safe(value, path)` specialised to a dict receiver: returns the
stored value when `path` is truthy and present, else Python `None`. -/
def getSafeD (d : Dict) (path : PyStr) : Val :=
  if path ≠ [] then
    match dictGet? d path with
    | some x => x
    | none => .null
  else .null

/-! ### Filter compiler: `_get_comparision_expr` and `_get_membership_expr` -/

/-- The `_comparision_operators` table. -/
def cmpOpSym (op : PyStr) : Option PyStr :=
  if op = "match".toList then some "=".toList
  else if op = "==".toList then some "=".toList
  else if op = "<=".toList then some "<=".toList
  else if op = ">=".toList then some ">=".toList
  else if op = "<".toList then some "<".toList
  else if op = ">".toList then some ">".toList
  else if op = "!=".toList then some "!=".toList
  else none

/-- Attribute quoting of `_get_comparision_expr`: non-`@`-prefixed attributes
are wrapped in double quotes. -/
def quoteAttr (attr : PyStr) : PyStr :=
  if "@".toList.isPrefixOf attr then attr else '"' :: (attr ++ ['"'])

/-- `_get_comparision_expr([op, attr, value])`.  Outer `none` is the failed
`assert mb_filter[0] in _comparision_operators`; inner `none` is the dropped
`$type` comparison.  `value` is the string Python interpolates with
`'{value}'`. -/
def comparisionExpr (op attr value : PyStr) : Option (Option PyStr) :=
  match cmpOpSym op with
  | none => none
  | some sym =>
    if attr = "$type".toList then some none
    else
      let a := quoteAttr attr
      let nullPart : PyStr :=
        if sym = "!=".toList then a ++ " is null or ".toList ++ a
        else a ++ " is not null and ".toList ++ a
      some (some (nullPart ++ [' '] ++ sym ++ [' ', '\x27'] ++ value ++ ['\x27']))

/-- The `_membership_operators` table. -/
def membOpSym (op : PyStr) : Option PyStr :=
  if op = "in".toList then some "in".toList
  else if op = "!in".toList then some "not in".toList
  else none

/-- `_get_membership_expr([op, attr, v1, v2, ...])`.  `none` covers the failed
asserts (unknown operator, or fewer than 3 filter elements, i.e. no values). -/
def membershipExpr (op attr : PyStr) (values : List PyStr) : Option PyStr :=
  match membOpSym op with
  | none => none
  | some osym =>
    if values = [] then none
    else
      let what : PyStr := '"' :: (attr ++ ['"'])
      let coll : PyStr :=
        '(' :: (joinWith ", ".toList (values.map (fun v => '\x27' :: (v ++ ['\x27']))) ++ [')'])
      let nullStr : PyStr :=
        if "!".toList.isPrefixOf op then "is null or".toList else "is not null and".toList
      some ('(' :: (what ++ [' '] ++ nullStr ++ [' '] ++ what ++ [' '] ++ osym ++ [' '] ++ coll ++ [')']))

/-- Shape of the boolean expressions the filter compiler emits, with a
renderer producing the exact output text and a satisfaction semantics.  Used
to state what the generated strings mean. -/
inductive BExpr where
  | isNullE (attr : PyStr)
  | isNotNullE (attr : PyStr)
  | cmpE (attr sym value : PyStr)
  | inMembE (attr : PyStr) (neg : Bool) (values : List PyStr)
  | orE (a b : BExpr)
  | andE (a b : BExpr)

def BExpr.render : BExpr → PyStr
  | .isNullE a => a ++ " is null".toList
  | .isNotNullE a => a ++ " is not null".toList
  | .cmpE a sym v => a ++ [' '] ++ sym ++ [' ', '\x27'] ++ v ++ ['\x27']
  | .inMembE a neg vs =>
    a ++ (if neg then " not in ".toList else " in ".toList) ++
      ('(' :: (joinWith ", ".toList (vs.map (fun v => '\x27' :: (v ++ ['\x27']))) ++ [')']))
  | .orE e1 e2 => e1.render ++ " or ".toList ++ e2.render
  | .andE e1 e2 => e1.render ++ " and ".toList ++ e2.render

/-- Satisfaction of a generated expression over a feature whose attribute
values are `env` (`none` = attribute null/absent); `cmpSem sym x v` interprets
a raw comparison `x sym 'v'` of the target engine. -/
def BExpr.holds (env : PyStr → Option PyStr) (cmpSem : PyStr → PyStr → PyStr → Prop) :
    BExpr → Prop
  | .isNullE a => env a = none
  | .isNotNullE a => env a ≠ none
  | .cmpE a sym v => ∃ x, env a = some x ∧ cmpSem sym x v
  | .inMembE a neg vs => ∃ x, env a = some x ∧ (if neg then x ∉ vs else x ∈ vs)
  | .orE e1 e2 => e1.holds env cmpSem ∨ e2.holds env cmpSem
  | .andE e1 e2 => e1.holds env cmpSem ∧ e2.holds env cmpSem

/-! ### Color normalizer: `parse_color`, `_get_color_string`, `_get_match_expr` -/

def hexVal (c : Char) : Option Nat :=
  if isDigitCh c then some (digitVal c)
  else if decide ('a' ≤ c) && decide (c ≤ 'f') then some (c.toNat - 'a'.toNat + 10)
  else if decide ('A' ≤ c) && decide (c ≤ 'F') then some (c.toNat - 'A'.toNat + 10)
  else none

/-- `bytearray.fromhex`: pairs of hex digits to byte values; ASCII spaces are
permitted between bytes; anything else is a `ValueError` (`none`). -/
def fromhexPairs : PyStr → Option (List Nat)
  | [] => some []
  | ' ' :: rest => fromhexPairs rest
  | [_] => none
  | c1 :: c2 :: rest => do
    let h1 ← hexVal c1
    let h2 ← hexVal c2
    let r ← fromhexPairs rest
    pure ((16 * h1 + h2) :: r)

/-- `",".join(map(lambda v: str(int(v)), bytes))`. -/
def renderCsvNats (bytes : List Nat) : PyStr :=
  joinWith ",".toList (bytes.map natToChars)

def joinCsvInts (vals : List Int) : PyStr :=
  joinWith ",".toList (vals.map intToChars)

def removeSub (pat : PyStr) (s : PyStr) : PyStr :=
  match pat with
  | [] => s
  | p0 :: pr => removeAll p0 pr s

/-- The strip-and-split stage of `_get_color_string`: lowercase, remove the
function wrappers and `)`/space/`%`, split on commas. -/
def colorTokens (cs : PyStr) : List PyStr :=
  let c := cs.map Char.toLower
  let c := removeSub "hsla(".toList c
  let c := removeSub "hsl(".toList c
  let c := removeSub "rgba(".toList c
  let c := removeSub "rgb(".toList c
  let c := removeSub ")".toList c
  let c := removeSub " ".toList c
  let c := removeSub "%".toList c
  c.splitOn ','

/-- `_get_color_string(color)`: `none` models the float-parse `ValueError` or
an `IndexError` on the component list. -/
def getColorString (cs : PyStr) : Option PyStr := do
  let lowered := cs.map Char.toLower
  let hasAlpha := "hsla(".toList.isPrefixOf lowered || "rgba(".toList.isPrefixOf lowered
  let isHsl := "hsl".toList.isPrefixOf lowered
  let colors ← (colorTokens cs).mapM pyFloat
  let a : PyRat ←
    if hasAlpha then
      match colors[3]? with
      | some x => some x
      | none => none
    else some 1
  if isHsl then
    match colors with
    | c0 :: c1 :: c2 :: _ =>
      let h := c0 / 360
      let s := c1 / 100
      let lv := c2 / 100
      let (r, g, b) := hls_to_rgb h lv s
      some (joinCsvInts ([r, g, b, a].map (fun c => pyRound (255 * c))))
    | _ => none
  else
    match colors with
    | c0 :: c1 :: c2 :: _ =>
      some (joinCsvInts [pyTrunc c0, pyTrunc c1, pyTrunc c2, pyRound (255 * a)])
    | _ => none

def everyOther {α : Type _} : List α → List α
  | [] => []
  | [x] => [x]
  | x :: _ :: rest => x :: everyOther rest

/-- `If.dumps()` over the linked conditional chain that `_get_match_expr`
builds: nested `if (cond, 'value', else)` ending in the quoted fallback. -/
def ifChain : List (PyStr × PyStr) → PyStr → PyStr
  | [], fb => fb
  | [(c, v)], fb =>
    "if (".toList ++ c ++ ", \x27".toList ++ v ++ "\x27, \x27".toList ++ fb ++ "\x27)".toList
  | (c, v) :: p :: rest, fb =>
    "if (".toList ++ c ++ ", \x27".toList ++ v ++ "\x27, ".toList ++ ifChain (p :: rest) fb ++ ")".toList

/-- `_get_match_expr(match)` with the recursive `parse_color` call passed in
as `pc`: labels at positions 2,4,..., outputs at 3,5,..., the last element is
the fallback; compiles to the nested conditional chain.  `none` models the
failed asserts and errors; non-string labels (which Python would stringify)
are not exercised by any input here and map to `none`. -/
def getMatchExprWith (pc : Val → Option PyStr) (m : List Val) : Option PyStr := do
  if ¬ (4 ≤ m.length ∧ m.length % 2 = 1) then none
  else do
    let op ← (match m.head? with
      | some (Val.s op) => some op
      | _ => none : Option PyStr)
    let _ ← cmpOpSym op
    let attr ← (match m[1]? with
      | some (Val.list l) =>
        (match l[1]? with
         | some (Val.s a) => some a
         | _ => none)
      | some (Val.s a) =>
        (match a[1]? with
         | some ch => some [ch]
         | none => none)
      | _ => none : Option PyStr)
    let labels := everyOther ((m.drop 2).dropLast)
    let outputs ← (everyOther (m.drop 3)).mapM pc
    let fallbackColor ← (match m.getLast? with
      | some lastVal => pc lastVal
      | none => none : Option PyStr)
    let pairs ← (labels.zip outputs).mapM (fun p => do
      let label ← (match p.1 with
        | Val.s lv => some lv
        | _ => none : Option PyStr)
      let cond ← (match comparisionExpr op attr label with
        | some (some e) => some e
        | some none => some "None".toList
        | none => none : Option PyStr)
      pure (cond, p.2))
    if pairs = [] then none
    else some (ifChain pairs fallbackColor)

/-- `parse_color(color)`.  The fuel bounds the recursion through nested
`match` color expressions (Python's recursion limit); `none` models a raised
error (`IndexError` on an empty list, `ValueError` from `fromhex` on bad hex,
`AttributeError` on non-string non-list input). -/
def parse_color : Nat → Val → Option PyStr
  | 0, _ => none
  | fuel + 1, v =>
    match v with
    | .list es =>
      match es.head? with
      | none => none
      | some h =>
        if h ≠ Val.s "match".toList then some "255,0,0,0".toList
        else getMatchExprWith (parse_color fuel) es
    | .s cs =>
      if "#".toList.isPrefixOf cs then
        let c := cs.filter (fun ch => ch ≠ '#')
        if c.length = 3 then
          (fromhexPairs (List.flatten (c.map (fun ch => [ch, ch])))).map renderCsvNats
        else if c.length = 6 then some ('#' :: c)
        else (fromhexPairs c).map renderCsvNats
      else getColorString cs
    | _ => none

/-! ### Layer style builder: `get_styles` and `_apply_scale_range` -/

/-- One element of the `all_values` list that `get_properties_values_for_zoom`
returns: `{"name": ..., "zoom_level": ..., "value": ..., "is_qgis_expr": ...}`. -/
structure PropVal where
  name : PyStr
  zoom_level : Option Int
  value : Val
  is_qgis_expr : Bool
deriving DecidableEq

/-- One style dict of `get_styles`.  The fixed dict keys are fields; `name`
`none` means the key is absent (it is only set when the layer id is truthy,
and never holds Python `None` when present); `rule` collapses "key absent"
and "value `None`" (no code path distinguishes them); `props` holds the
property-valued keys, which for all real inputs are property names like
`fill-color` and never collide with the fixed keys. -/
structure Band where
  zoom_level : Option Int := none
  min_scale_denom : Option Int := none
  max_scale_denom : Option Int := none
  name : Option Val := none
  rule : Option PyStr := none
  rendering_pass : Option Nat := none
  props : List (PyStr × Val) := []
deriving DecidableEq

/-- `upper_bound_map_scales_by_zoom_level`; `none` is a `KeyError` for a zoom
outside 0..24. -/
def scaleBound : Int → Option Int
  | 0 => some 1000000000
  | 1 => some 1000000000
  | 2 => some 500000000
  | 3 => some 200000000
  | 4 => some 50000000
  | 5 => some 25000000
  | 6 => some 12500000
  | 7 => some 6500000
  | 8 => some 3000000
  | 9 => some 1500000
  | 10 => some 750000
  | 11 => some 400000
  | 12 => some 200000
  | 13 => some 100000
  | 14 => some 50000
  | 15 => some 25000
  | 16 => some 12500
  | 17 => some 5000
  | 18 => some 2500
  | 19 => some 1500
  | 20 => some 750
  | 21 => some 500
  | 22 => some 250
  | 23 => some 100
  | 24 => some 0
  | _ => none

def valuesAt (av : List PropVal) (z : Int) : List PropVal :=
  av.filter (fun v => v.zoom_level = some z)

/-- `if minzoom not in values_by_zoom: values_by_zoom[minzoom] = []` (and the
same for `maxzoom`): one membership-guarded key addition. -/
def addKey (ks : List Int) : Option Int → List Int
  | some m => if m ∈ ks then ks else ks ++ [m]
  | none => ks

/-- The sorted key set of `values_by_zoom` after the `minzoom`/`maxzoom`
additions.  `dedup` keeps one copy of each zoom (which copy is kept is
irrelevant: the list is sorted immediately after). -/
def zoomKeys (av : List PropVal) (minz maxz : Option Int) : List Int :=
  (addKey (addKey ((av.filterMap (fun v => v.zoom_level)).dedup) minz) maxz).insertionSort
    (· ≤ ·)

/-- The band-construction loop: deep-copy the evolving clone forward through
the ascending zoom keys, overlaying each zoom's property values. -/
def buildBands (av : List PropVal) : Band → List Int → List Band
  | _, [] => []
  | base, z :: rest =>
    let clone : Band := { base with
      zoom_level := some z,
      props := (valuesAt av z).foldl (fun ps v => dictSet ps v.name v.value) base.props }
    clone :: buildBands av clone rest

/-- One step of the backward fill: every key of `src` missing from `dst` is
copied into `dst` (`for k in s: if k not in next_style: next_style[k] = s[k]`;
the fixed dict keys are present on every band, so only `props` can change). -/
def fillMissing (src dst : Band) : Band :=
  { dst with
    props := src.props.foldl
      (fun d e => if hasKeyD d e.1 then d else dictSet d e.1 e.2) dst.props }

/-- The backward walk over `styles_backwards` (the band list reversed):
each band back-fills its missing keys into the next (lower-zoom) one, which
is then itself (in its updated state) the source for the following step. -/
def backFillRevAux (prev : Band) : List Band → List Band
  | [] => []
  | c :: rest =>
    let c' := fillMissing prev c
    c' :: backFillRevAux c' rest

def backFillRev : List Band → List Band
  | [] => []
  | b :: rest => b :: backFillRevAux b rest

/-- Sort key of `sorted(resulting_styles, key=lambda st: st["zoom_level"])`.
All bands being sorted either all carry an `Int` zoom or form a one-element
list, so the `getD` default is never compared. -/
def zKey (b : Band) : Int := b.zoom_level.getD 0

/-- Python's `sorted` is a stable sort; any stable sort yields the same list. -/
def sortBands (l : List Band) : List Band :=
  l.insertionSort (fun a b => zKey a ≤ zKey b)

/-- The loop body of `_apply_scale_range` for one band: `max_scale_denom`
from the band's own zoom, `min_scale_denom` from the next band's zoom (the
head of `rest`), or 1 when this band is the last; a band with `zoom_level`
`None` is skipped (left unchanged); `none` is the `KeyError` of a table
lookup at a missing zoom. -/
def scaleHead (b : Band) (rest : List Band) : Option Band :=
  match b.zoom_level with
  | none => some b
  | some z => do
    let mx ← scaleBound z
    let mn ← (match rest with
      | [] => some 1
      | nxt :: _ =>
        match nxt.zoom_level with
        | some zn => scaleBound zn
        | none => none : Option Int)
    pure { b with min_scale_denom := some mn, max_scale_denom := some mx }

/-- `_apply_scale_range(styles)`: the loop over all indices; any `KeyError`
aborts the whole call. -/
def applyScaleRange : List Band → Option (List Band)
  | [] => some []
  | b :: rest => do
    let bs ← scaleHead b rest
    let rest' ← applyScaleRange rest
    pure (bs :: rest')

/-- `base_style`: the shared dict the zoom-independent property values are
written into; `name` is set only for a truthy layer id. -/
def baseStyle (layer_id : Val) (av : List PropVal) : Band :=
  { zoom_level := none, min_scale_denom := none, max_scale_denom := none,
    name := if layer_id.truthy then some layer_id else none,
    props := (av.filter (fun v => v.zoom_level = none)).foldl
      (fun ps v => dictSet ps v.name v.value) [] }

/-- `resulting_styles` just before the final sort and `_apply_scale_range`:
the lone base style when `values_by_zoom` is empty, else the per-zoom clones
after the backward fill. -/
def preScaleBands (layer_id : Val) (av : List PropVal) (minz maxz : Option Int) :
    List Band :=
  let base := baseStyle layer_id av
  let keys := zoomKeys av minz maxz
  if keys = [] then [base]
  else (backFillRev (buildBands av base keys).reverse).reverse

/-- The body of `get_styles` from the point where `all_values` has been
collected (lines 279-356): `layer_id` and the already-collected `all_values`,
`minzoom`/`maxzoom` of the layer (already `int()`-converted) come in; the
sorted, back-filled, scale-ranged band list comes out. -/
def get_styles_core (layer_id : Val) (av : List PropVal) (minz maxz : Option Int) :
    Option (List Band) :=
  applyScaleRange (sortBands (preScaleBands layer_id av minz maxz))

inductive PyErr where
  | keyError (k : PyStr)
  | runtimeError (msg : PyStr)
  | typeError
  | scaleKeyError
deriving DecidableEq

/-- Python `int()` on a JSON value (used for `minzoom`/`maxzoom`):
truncation for numbers, digit parsing for strings, `True`/`False` as 1/0,
`TypeError`/`ValueError` (`none`) otherwise. -/
def pyIntOf : Val → Option Int
  | .num q => some (pyTrunc q)
  | .b v => some (if v then 1 else 0)
  | .s str =>
    (match str with
     | '-' :: rest =>
       if rest ≠ [] ∧ rest.all isDigitCh then some (-(digitsToNat rest : Int)) else none
     | _ => if str ≠ [] ∧ str.all isDigitCh then some ((digitsToNat str : Int)) else none)
  | _ => none

/-- `get_styles(layer)`.  The per-layer-type collection of `all_values`
(lines 287-314, a fixed list of `get_properties_values_for_zoom` calls that
cannot raise the errors this claim set is about) is abstracted as the
`collect` parameter; everything else follows the source: `layer["id"]`
raises `KeyError` when the key is missing, then a missing `"type"` raises
`RuntimeError("'type' not set on layer")`, then `minzoom`/`maxzoom` are
`int()`-converted and the band list is built by `get_styles_core`. -/
def get_styles_with (collect : Dict → Val → List PropVal) (layer : Dict) :
    Except PyErr (List Band) := do
  let layer_id ← (match dictGet? layer "id".toList with
    | some v => Except.ok v
    | none => Except.error (PyErr.keyError "id".toList) : Except PyErr Val)
  let layer_type ← (match dictGet? layer "type".toList with
    | some v => Except.ok v
    | none => Except.error (PyErr.runtimeError "\x27type\x27 not set on layer".toList) :
      Except PyErr Val)
  let all_values := collect layer layer_type
  let minz ← (match dictGet? layer "minzoom".toList with
    | none => Except.ok none
    | some v =>
      match pyIntOf v with
      | some m => Except.ok (some m)
      | none => Except.error PyErr.typeError : Except PyErr (Option Int))
  let maxz ← (match dictGet? layer "maxzoom".toList with
    | none => Except.ok none
    | some v =>
      match pyIntOf v with
      | some m => Except.ok (some m)
      | none => Except.error PyErr.typeError : Except PyErr (Option Int))
  match get_styles_core layer_id all_values minz maxz with
  | some bands => pure bands
  | none => Except.error PyErr.scaleKeyError

/-! ### Style set compiler: the `rendering_pass` loop of `process` -/

def zoomTruthy : Option Int → Bool
  | none => false
  | some z => decide (z ≠ 0)

/-- The lambda of the `styles_with_same_target` filter:
`st["name"] != name and st["rule"] == rule and zoom and st["zoom_level"] <= zoom`.
`none` models the `KeyError` on a missing `name` key and the `TypeError` of
comparing a `None` zoom with an int (its truthiness short-circuit included). -/
def rpPred (nm : Val) (rule : Option PyStr) (zoom : Option Int) (st : Band) : Option Bool :=
  match st.name with
  | none => none
  | some n =>
    if n = nm then some false
    else if st.rule ≠ rule then some false
    else if ¬ zoomTruthy zoom then some false
    else
      match st.zoom_level, zoom with
      | some z2, some z => some (decide (z2 ≤ z))
      | _, _ => none

/-- `list(filter(...))` with a predicate that can raise. -/
def optFilter {α : Type _} (p : α → Option Bool) : List α → Option (List α)
  | [] => some []
  | x :: rest => do
    let b ← p x
    let r ← optFilter p rest
    pure (if b then x :: r else r)

def countRunsFrom (prev : Val) : List Val → Nat
  | [] => 0
  | y :: rest => if y = prev then countRunsFrom prev rest else 1 + countRunsFrom y rest

/-- `len(list(groupby(l, key)))`: the number of maximal runs of equal keys. -/
def countRuns : List Val → Nat
  | [] => 0
  | x :: rest => 1 + countRunsFrom x rest

/-- The `rendering_pass` loop of `process` (lines 120-133) over one file's
style list: for each band, the earlier bands passing the filter are grouped
by name (consecutive runs) and the run count becomes `rendering_pass`. -/
def assignAux (styles : List Band) : Nat → List Band → Option (List Band)
  | _, [] => some []
  | i, b :: rest => do
    let nm ← (match b.name with
      | some n => some n
      | none => none : Option Val)
    let filtered ← optFilter (rpPred nm b.rule b.zoom_level) (styles.take i)
    let names := filtered.map (fun st => st.name.getD Val.null)
    let rest' ← assignAux styles (i + 1) rest
    pure ({ b with rendering_pass := some (countRuns names) } :: rest')

def assignPasses (styles : List Band) : Option (List Band) :=
  assignAux styles 0 styles

def zoomLeOpt : Option Int → Option Int → Bool
  | some a, some b => decide (a ≤ b)
  | _, _ => false

/-- Modelled from the spec's words for claim C1 (the refinement target, not
from the source): the count of distinct names among the preceding bands of
the file that share this band's `rule` and have `zoom_level` ≤ this band's
`zoom_level`. -/
def spec_rendering_pass (styles : List Band) (i : Nat) : Nat :=
  match styles[i]? with
  | none => 0
  | some b =>
    ((((styles.take i).filter
        (fun st => decide (st.rule = b.rule) && zoomLeOpt st.zoom_level b.zoom_level)).map
      (fun st => st.name)).dedup).length

/-- The amended qualification for claim C1: same rule, zoom at most `z`, and
a name different from the band's own. -/
def amendedQualifies (nm : Val) (rule : Option PyStr) (z : Int) (st : Band) : Bool :=
  match st.name, st.zoom_level with
  | some n, some z2 => decide (n ≠ nm) && decide (st.rule = rule) && decide (z2 ≤ z)
  | _, _ => false

def amendedNames (styles : List Band) (i : Nat) (nm : Val) (rule : Option PyStr) (z : Int) :
    List Val :=
  ((styles.take i).filter (amendedQualifies nm rule z)).map (fun st => st.name.getD Val.null)

/-! ### Style set compiler: `_apply_source_layer` and the ref pass of `process` -/

/-- Index of `matching_layers[0]`: the first layer whose `id` equals `ref`. -/
def findMatchIdx (ref : Val) : Nat → List Dict → Option Nat
  | _, [] => none
  | i, l :: rest =>
    if getSafeD l "id".toList = ref then some i else findMatchIdx ref (i + 1) rest

/-- `for prop in target_layer: if prop != "paint": layer[prop] = target_layer[prop]`. -/
def copyNonPaint (dst src : Dict) : Dict :=
  src.foldl (fun d e => if e.1 = "paint".toList then d else dictSet d e.1 e.2) dst

/-- `_apply_source_layer(layer, all_layers)` on the layer at index `i`.
The fuel bounds the recursion (Python's recursion limit): `none` means the
call does not return (`RecursionError`). -/
def applySourceLayer : Nat → Nat → List Dict → Option (List Dict)
  | 0, _, _ => none
  | fuel + 1, i, layers =>
    match layers[i]? with
    | none => none
    | some l =>
      let ref := getSafeD l "ref".toList
      if ref.truthy then
        match findMatchIdx ref 0 layers with
        | none => some layers
        | some j =>
          match layers[j]? with
          | none => none
          | some target =>
            let layers' := layers.set i (copyNonPaint l target)
            applySourceLayer fuel j layers'
      else some layers

/-- The ref-resolution pass of `process` (lines 92-94): iterate the layer
list by position; a layer holding a `ref` key (in its current, possibly
already rewritten state) is resolved in place. -/
def refPassAux (fuel : Nat) : Nat → Nat → List Dict → Option (List Dict)
  | 0, _, layers => some layers
  | n + 1, i, layers =>
    match layers[i]? with
    | none => some layers
    | some l => do
      let layers' ← if hasKeyD l "ref".toList then applySourceLayer fuel i layers else some layers
      refPassAux fuel n (i + 1) layers'

def processRefPass (fuel : Nat) (layers : List Dict) : Option (List Dict) :=
  refPassAux fuel layers.length 0 layers

/-! ### Concrete example inputs used by witnesses and counterexamples -/

def quoteField (attr : PyStr) : PyStr := '"' :: (attr ++ ['"'])

/-- A ref chain: A refs B, B refs C, only C carries `type`; listed in the
order [A, C, B], for which the ref pass terminates. -/
def exLayerA : Dict := [("id".toList, Val.s "A".toList), ("ref".toList, Val.s "B".toList)]

def exLayerB : Dict := [("id".toList, Val.s "B".toList), ("ref".toList, Val.s "C".toList)]

def exLayerC : Dict := [("id".toList, Val.s "C".toList), ("type".toList, Val.s "fill".toList)]

def exRefChain : List Dict := [exLayerA, exLayerC, exLayerB]

/-- What the ref pass makes of `exRefChain`: A received B's pre-resolution
properties (including B's `id` and `ref`), B received C's; A never receives
C's `type`. -/
def exHeadOut : Dict := [("id".toList, Val.s "B".toList), ("ref".toList, Val.s "C".toList)]

def exRefChainOut : List Dict :=
  [exHeadOut,
   exLayerC,
   [("id".toList, Val.s "C".toList), ("ref".toList, Val.s "C".toList),
    ("type".toList, Val.s "fill".toList)]]

/-- A single layer whose `ref` names an id held by no layer: `matching_layers`
is empty, so the ref pass leaves the document untouched even though a `ref`
key is present. -/
def exDangling : List Dict :=
  [[("id".toList, Val.s "A".toList), ("ref".toList, Val.s "Z".toList)]]

/-- A style band carrying only name, rule and zoom, as the rendering-pass
loop of `process` sees them. -/
def exBand (nm r : PyStr) (z : Int) : Band :=
  { name := some (Val.s nm), rule := some r, zoom_level := some z }

/-- Two bands of distinct layers, same rule, both at zoom level 0. -/
def exZeroZoom : List Band :=
  [exBand "A".toList "R".toList 0, exBand "B".toList "R".toList 0]

/-- The A/B/C scenario of the claim: same rule, zooms 5, 5, 6. -/
def exABC : List Band :=
  [exBand "A".toList "R".toList 5, exBand "B".toList "R".toList 5,
   exBand "C".toList "R".toList 6]

def exABCOut : List Band :=
  [{ exBand "A".toList "R".toList 5 with rendering_pass := some 0 },
   { exBand "B".toList "R".toList 5 with rendering_pass := some 1 },
   { exBand "C".toList "R".toList 6 with rendering_pass := some 2 }]

/-- A two-property `all_values` list: a fill-color at zoom 5 and a
fill-opacity at zoom 7, as collected for a fill layer. -/
def exC2av : List PropVal :=
  [⟨"fill-color".toList, some 5, Val.s "red".toList, false⟩,
   ⟨"fill-opacity".toList, some 7, Val.num ⟨1, 1⟩, false⟩]

/-- The style bands `get_styles` produces for `exC2av`. -/
def exC2Bands : List Band :=
  [{ zoom_level := some 5, min_scale_denom := some 6500000,
     max_scale_denom := some 25000000, name := some (Val.s "water".toList),
     props := [("fill-color".toList, Val.s "red".toList), ("fill-opacity".toList, Val.num ⟨1, 1⟩)] },
   { zoom_level := some 7, min_scale_denom := some 1,
     max_scale_denom := some 6500000, name := some (Val.s "water".toList),
     props := [("fill-color".toList, Val.s "red".toList), ("fill-opacity".toList, Val.num ⟨1, 1⟩)] }]

/-! ### Theorems -/

/-- C9: for every list-form color whose first element is not `"match"`,
`parse_color` raises no error and returns the fully-transparent-red sentinel
string `"255,0,0,0"`. -/
theorem C9_list_color_sentinel (fuel : Nat) (es : List Val) (h : Val)
    (hh : es.head? = some h) (hne : h ≠ Val.s "match".toList) :
    parse_color (fuel + 1) (Val.list es) = some "255,0,0,0".toList := by
  simp only [parse_color, hh]
  rw [if_pos hne]

theorem C9_list_color_sentinel_witness :
    ([Val.s "interpolate".toList].head? = some (Val.s "interpolate".toList)) ∧
    (Val.s "interpolate".toList ≠ Val.s "match".toList) ∧
    parse_color 1 (Val.list [Val.s "interpolate".toList]) = some "255,0,0,0".toList :=
  ⟨rfl, by decide, C9_list_color_sentinel 0 _ _ rfl (by decide)⟩

/-- C5 counterexample: `parse_color("#abc")` returns the three-component CSV
`"170,187,204"`; no default alpha 255 is appended, so the claimed conversion
to `"r,g,b,a"` (which would give `"170,187,204,255"`) is wrong. -/
theorem C5_counterexample :
    parse_color 1 (Val.s "#abc".toList) = some "170,187,204".toList ∧
    some "170,187,204".toList ≠ some "170,187,204,255".toList :=
  ⟨by decide, by decide⟩

/-- C5 (amended): with `c` the input after removing `#` characters: a
6-digit hex returns `"#" + c` unchanged; a 3-digit hex has each digit
duplicated and becomes the decimal CSV of the three resulting byte values
, with no alpha component appended; every other length becomes the
decimal CSV of exactly its own byte pairs (so an 8-digit hex supplies its
own alpha and none is defaulted; an odd length is a `ValueError`). -/
theorem C5_hex_parse (fuel : Nat) (cs c : PyStr)
    (hpre : "#".toList.isPrefixOf cs = true)
    (hc : cs.filter (fun ch => ch ≠ '#') = c) :
    (c.length = 6 → parse_color (fuel + 1) (Val.s cs) = some ('#' :: c)) ∧
    (∀ d1 d2 d3 v1 v2 v3, c = [d1, d2, d3] →
      hexVal d1 = some v1 → hexVal d2 = some v2 → hexVal d3 = some v3 →
      parse_color (fuel + 1) (Val.s cs) =
        some (renderCsvNats [17 * v1, 17 * v2, 17 * v3])) ∧
    (∀ bs, c.length ≠ 3 → c.length ≠ 6 → fromhexPairs c = some bs →
      parse_color (fuel + 1) (Val.s cs) = some (renderCsvNats bs)) := by
  simp only [ne_eq, decide_not] at hc
  have hpre' : ['#'] <+: cs := by simpa using hpre
  refine ⟨?_, ?_, ?_⟩
  · intro h6
    simp [parse_color, hpre', hc, h6]
  · rintro d1 d2 d3 v1 v2 v3 rfl h1 h2 h3
    have hd1 : d1 ≠ ' ' := by
      intro e
      rw [e, show hexVal ' ' = none from by decide] at h1
      simp at h1
    have hd2 : d2 ≠ ' ' := by
      intro e
      rw [e, show hexVal ' ' = none from by decide] at h2
      simp at h2
    have hd3 : d3 ≠ ' ' := by
      intro e
      rw [e, show hexVal ' ' = none from by decide] at h3
      simp at h3
    have h17 : ∀ v : Nat, 16 * v + v = 17 * v := by omega
    simp [parse_color, hpre', hc, fromhexPairs, hd1, hd2, hd3, h1, h2, h3, h17]
  · intro bs h3 h6 hfp
    simp [parse_color, hpre', hc, h3, h6, hfp]

theorem C5_hex_parse_witness :
    parse_color 1 (Val.s "#abcdef".toList) = some ('#' :: "abcdef".toList) ∧
    parse_color 1 (Val.s "#abc".toList) =
      some (renderCsvNats [17 * 10, 17 * 11, 17 * 12]) ∧
    parse_color 1 (Val.s "#aabbccdd".toList) =
      some (renderCsvNats [170, 187, 204, 221]) :=
  ⟨(C5_hex_parse 0 "#abcdef".toList "abcdef".toList (by decide) (by decide)).1 (by decide),
   (C5_hex_parse 0 "#abc".toList "abc".toList (by decide) (by decide)).2.1
     'a' 'b' 'c' 10 11 12 (by decide) (by decide) (by decide) (by decide),
   (C5_hex_parse 0 "#aabbccdd".toList "aabbccdd".toList (by decide) (by decide)).2.2
     [170, 187, 204, 221] (by decide) (by decide) (by decide)⟩

/-- C6: comparison filters `[op, attr, value]` with `op` drawn from the
comparison table: a `$type` attribute compiles to no predicate; otherwise
`!=` compiles to the rendered `attr is null or attr != 'value'` form, which
is satisfied exactly when the attribute is null or the raw comparison holds
on its value, and every other operator compiles to the rendered
`attr is not null and attr op 'value'` form, satisfied exactly when the
attribute is non-null and the raw comparison holds. -/
theorem C6_comparison_null_safety (op attr value sym : PyStr)
    (hop : cmpOpSym op = some sym) :
    (comparisionExpr op "$type".toList value = some none) ∧
    (attr ≠ "$type".toList →
      ((sym = "!=".toList →
        comparisionExpr op attr value =
          some (some ((BExpr.orE (BExpr.isNullE (quoteAttr attr))
            (BExpr.cmpE (quoteAttr attr) sym value)).render)) ∧
        (∀ env cmpSem,
          (BExpr.orE (BExpr.isNullE (quoteAttr attr))
            (BExpr.cmpE (quoteAttr attr) sym value)).holds env cmpSem ↔
          (env (quoteAttr attr) = none ∨
            ∃ x, env (quoteAttr attr) = some x ∧ cmpSem sym x value))) ∧
       (sym ≠ "!=".toList →
        comparisionExpr op attr value =
          some (some ((BExpr.andE (BExpr.isNotNullE (quoteAttr attr))
            (BExpr.cmpE (quoteAttr attr) sym value)).render)) ∧
        (∀ env cmpSem,
          (BExpr.andE (BExpr.isNotNullE (quoteAttr attr))
            (BExpr.cmpE (quoteAttr attr) sym value)).holds env cmpSem ↔
          (env (quoteAttr attr) ≠ none ∧
            ∃ x, env (quoteAttr attr) = some x ∧ cmpSem sym x value))))) := by
  refine ⟨by simp [comparisionExpr, hop], ?_⟩
  intro hat
  have hat' : attr ≠ ['$', 't', 'y', 'p', 'e'] := by simpa using hat
  refine ⟨?_, ?_⟩
  · intro hsym
    refine ⟨?_, ?_⟩
    · simp [comparisionExpr, hop, hat', hsym, BExpr.render]
    · intro env cmpSem
      simp [BExpr.holds]
  · intro hsym
    have hsym' : sym ≠ ['!', '='] := by simpa using hsym
    refine ⟨?_, ?_⟩
    · simp [comparisionExpr, hop, hat', hsym', BExpr.render]
    · intro env cmpSem
      simp [BExpr.holds]

theorem C6_comparison_null_safety_witness :
    comparisionExpr "==".toList "class".toList "park".toList =
      some (some "\"class\" is not null and \"class\" = \x27park\x27".toList) ∧
    comparisionExpr "!=".toList "class".toList "park".toList =
      some (some "\"class\" is null or \"class\" != \x27park\x27".toList) :=
  ⟨(((C6_comparison_null_safety "==".toList "class".toList "park".toList "=".toList
        (by decide)).2 (by decide)).2 (by decide)).1.trans (by decide),
   (((C6_comparison_null_safety "!=".toList "class".toList "park".toList "!=".toList
        (by decide)).2 (by decide)).1 (by decide)).1.trans (by decide)⟩

/-- C7 counterexample: for `["in", "class", "a"]` the code joins the null
test to the membership test with `and` (`is not null and`), not with `or`:
the output matches neither or-joined form the claim describes. -/
theorem C7_counterexample :
    membershipExpr "in".toList "class".toList ["a".toList] =
      some "(\"class\" is not null and \"class\" in (\x27a\x27))".toList ∧
    "(\"class\" is not null and \"class\" in (\x27a\x27))".toList ≠
      "(\"class\" is not null or \"class\" in (\x27a\x27))".toList ∧
    "(\"class\" is not null and \"class\" in (\x27a\x27))".toList ≠
      "(\"class\" is null or \"class\" in (\x27a\x27))".toList :=
  ⟨by decide, by decide, by decide⟩

/-- C7 (amended): membership filters with at least one value compile with
operator-matched null-safety: `[in, attr, vs]` to the parenthesised rendering
of `attr is not null and attr in (vs)` (satisfied exactly when the attribute
is non-null and its value is listed), and `[!in, attr, vs]` to the rendering
of `attr is null or attr not in (vs)` (satisfied exactly when the attribute
is null or its value is not listed). -/
theorem C7_membership_forms (attr : PyStr) (values : List PyStr)
    (hne : values ≠ []) :
    (membershipExpr "in".toList attr values =
      some ('(' :: ((BExpr.andE (BExpr.isNotNullE (quoteField attr))
        (BExpr.inMembE (quoteField attr) false values)).render ++ [')'])) ∧
     ∀ env cmpSem,
       (BExpr.andE (BExpr.isNotNullE (quoteField attr))
         (BExpr.inMembE (quoteField attr) false values)).holds env cmpSem ↔
       (env (quoteField attr) ≠ none ∧
         ∃ x, env (quoteField attr) = some x ∧ x ∈ values)) ∧
    (membershipExpr "!in".toList attr values =
      some ('(' :: ((BExpr.orE (BExpr.isNullE (quoteField attr))
        (BExpr.inMembE (quoteField attr) true values)).render ++ [')'])) ∧
     ∀ env cmpSem,
       (BExpr.orE (BExpr.isNullE (quoteField attr))
         (BExpr.inMembE (quoteField attr) true values)).holds env cmpSem ↔
       (env (quoteField attr) = none ∨
         ∃ x, env (quoteField attr) = some x ∧ x ∉ values)) := by
  refine ⟨⟨?_, ?_⟩, ⟨?_, ?_⟩⟩
  · simp [membershipExpr, membOpSym, hne, quoteField, BExpr.render]
  · intro env cmpSem
    simp [BExpr.holds]
  · simp [membershipExpr, membOpSym, hne, quoteField, BExpr.render]
  · intro env cmpSem
    simp [BExpr.holds]

theorem C7_membership_forms_witness :
    membershipExpr "in".toList "class".toList ["a".toList] =
      some ('(' :: ((BExpr.andE (BExpr.isNotNullE (quoteField "class".toList))
        (BExpr.inMembE (quoteField "class".toList) false ["a".toList])).render ++ [')'])) ∧
    membershipExpr "!in".toList "class".toList ["a".toList] =
      some "(\"class\" is null or \"class\" not in (\x27a\x27))".toList :=
  ⟨((C7_membership_forms "class".toList ["a".toList] (by decide)).1).1,
   (((C7_membership_forms "class".toList ["a".toList] (by decide)).2).1).trans (by decide)⟩

/-- C8 counterexample: `rgba(10.7,20,30,0.5)`: the code converts r,g,b with
`int()` (truncation toward zero), not rounding: the result is
`"10,20,30,128"` where rounding each channel to the nearest integer would
give `"11,20,30,128"`. -/
theorem C8_counterexample :
    getColorString "rgba(10.7,20,30,0.5)".toList = some "10,20,30,128".toList ∧
    "10,20,30,128".toList ≠ "11,20,30,128".toList :=
  ⟨by decide, by decide⟩

theorem listGet?_of_prefix {p L : List Char} (h : p <+: L) (i : Nat) (hi : i < p.length) :
    L[i]? = p[i]? := by
  obtain ⟨t, rfl⟩ := h
  rw [List.getElem?_append, if_pos hi]

/-- C8 (amended): the normalizer lowercases, strips the function wrappers
and `)`/space/`%`, splits on commas and parses floats; the alpha value is
the fourth component for `rgba(`/`hsla(` and defaults to 1 for the
alpha-less `rgb(`/`hsl(` forms; for the rgb forms the output is the CSV of
the three `int()`-truncated channels and the alpha rounded from 255 times
its value (truncation, not rounding, for r,g,b); for the hsl forms the
components are converted through the standard HLS-to-RGB transform and
every channel, alpha included, is rounded to the nearest integer after
scaling by 255; no clamping to 0-255 is applied anywhere. -/
theorem C8_color_string (cs t1 t2 t3 t4 : PyStr) (q1 q2 q3 q4 : PyRat)
    (h1 : pyFloat t1 = some q1) (h2 : pyFloat t2 = some q2)
    (h3 : pyFloat t3 = some q3) :
    (colorTokens cs = [t1, t2, t3] →
      "rgb(".toList.isPrefixOf (cs.map Char.toLower) = true →
      getColorString cs =
        some (joinCsvInts [pyTrunc q1, pyTrunc q2, pyTrunc q3, pyRound (255 * 1)])) ∧
    (colorTokens cs = [t1, t2, t3, t4] → pyFloat t4 = some q4 →
      "rgba(".toList.isPrefixOf (cs.map Char.toLower) = true →
      getColorString cs =
        some (joinCsvInts [pyTrunc q1, pyTrunc q2, pyTrunc q3, pyRound (255 * q4)])) ∧
    (colorTokens cs = [t1, t2, t3] →
      "hsl(".toList.isPrefixOf (cs.map Char.toLower) = true →
      getColorString cs =
        some (joinCsvInts
          ([(hls_to_rgb (q1 / 360) (q3 / 100) (q2 / 100)).1,
            (hls_to_rgb (q1 / 360) (q3 / 100) (q2 / 100)).2.1,
            (hls_to_rgb (q1 / 360) (q3 / 100) (q2 / 100)).2.2,
            1].map (fun c => pyRound (255 * c))))) ∧
    (colorTokens cs = [t1, t2, t3, t4] → pyFloat t4 = some q4 →
      "hsla(".toList.isPrefixOf (cs.map Char.toLower) = true →
      getColorString cs =
        some (joinCsvInts
          ([(hls_to_rgb (q1 / 360) (q3 / 100) (q2 / 100)).1,
            (hls_to_rgb (q1 / 360) (q3 / 100) (q2 / 100)).2.1,
            (hls_to_rgb (q1 / 360) (q3 / 100) (q2 / 100)).2.2,
            q4].map (fun c => pyRound (255 * c))))) := by
  have hm3 : List.mapM.loop pyFloat [t1, t2, t3] [] = some [q1, q2, q3] := by
    simp [List.mapM.loop, h1, h2, h3]
  refine ⟨?_, ?_, ?_, ?_⟩
  · intro htok hrgb
    have hrgb' : ['r', 'g', 'b', '('] <+: cs.map Char.toLower := by simpa using hrgb
    have hnrgba : ¬ (['r', 'g', 'b', 'a', '('] <+: cs.map Char.toLower) := by
      intro hcon
      have e1 := listGet?_of_prefix hrgb' 3 (by decide)
      have e2 := listGet?_of_prefix hcon 3 (by decide)
      rw [e1] at e2
      exact absurd e2 (by decide)
    have hnhsl : ¬ (['h', 's', 'l'] <+: cs.map Char.toLower) := by
      intro hcon
      have e1 := listGet?_of_prefix hrgb' 0 (by decide)
      have e2 := listGet?_of_prefix hcon 0 (by decide)
      rw [e1] at e2
      exact absurd e2 (by decide)
    have hnhsla : ¬ (['h', 's', 'l', 'a', '('] <+: cs.map Char.toLower) := by
      intro hcon
      exact hnhsl (List.IsPrefix.trans ⟨['a', '('], rfl⟩ hcon)
    simp [getColorString, htok, hm3, hnrgba, hnhsl, hnhsla]
  · intro htok h4 hrgba
    have hm4 : List.mapM.loop pyFloat [t1, t2, t3, t4] [] = some [q1, q2, q3, q4] := by
      simp [List.mapM.loop, h1, h2, h3, h4]
    have hrgba' : ['r', 'g', 'b', 'a', '('] <+: cs.map Char.toLower := by simpa using hrgba
    have hnhsl : ¬ (['h', 's', 'l'] <+: cs.map Char.toLower) := by
      intro hcon
      have e1 := listGet?_of_prefix hrgba' 0 (by decide)
      have e2 := listGet?_of_prefix hcon 0 (by decide)
      rw [e1] at e2
      exact absurd e2 (by decide)
    have hnhsla : ¬ (['h', 's', 'l', 'a', '('] <+: cs.map Char.toLower) := by
      intro hcon
      exact hnhsl (List.IsPrefix.trans ⟨['a', '('], rfl⟩ hcon)
    simp [getColorString, htok, hm4, hrgba', hnhsl, hnhsla]
  · intro htok hhsl
    have hhsl4 : ['h', 's', 'l', '('] <+: cs.map Char.toLower := by simpa using hhsl
    have hhsl' : ['h', 's', 'l'] <+: cs.map Char.toLower :=
      List.IsPrefix.trans ⟨['('], rfl⟩ hhsl4
    have hnhsla : ¬ (['h', 's', 'l', 'a', '('] <+: cs.map Char.toLower) := by
      intro hcon
      have e1 := listGet?_of_prefix hhsl4 3 (by decide)
      have e2 := listGet?_of_prefix hcon 3 (by decide)
      rw [e1] at e2
      exact absurd e2 (by decide)
    have hnrgba : ¬ (['r', 'g', 'b', 'a', '('] <+: cs.map Char.toLower) := by
      intro hcon
      have e1 := listGet?_of_prefix hhsl4 0 (by decide)
      have e2 := listGet?_of_prefix hcon 0 (by decide)
      rw [e1] at e2
      exact absurd e2 (by decide)
    simp [getColorString, htok, hm3, hhsl', hnhsla, hnrgba]
  · intro htok h4 hhsla
    have hm4 : List.mapM.loop pyFloat [t1, t2, t3, t4] [] = some [q1, q2, q3, q4] := by
      simp [List.mapM.loop, h1, h2, h3, h4]
    have hhsla' : ['h', 's', 'l', 'a', '('] <+: cs.map Char.toLower := by simpa using hhsla
    have hhsl' : ['h', 's', 'l'] <+: cs.map Char.toLower :=
      List.IsPrefix.trans ⟨['a', '('], rfl⟩ hhsla'
    simp [getColorString, htok, hm4, hhsla', hhsl']

theorem dictGet?_dictSet (d : Dict) (k : PyStr) (v : Val) (k' : PyStr) :
    dictGet? (dictSet d k v) k' = if k' = k then some v else dictGet? d k' := by
  induction d with
  | nil =>
    rcases eq_or_ne k' k with rfl | h
    · simp [dictSet, dictGet?]
    · simp [dictSet, dictGet?, h, Ne.symm h]
  | cons hd tl ih =>
    obtain ⟨k0, v0⟩ := hd
    by_cases h0 : k0 = k
    · subst h0
      rcases eq_or_ne k' k0 with rfl | h
      · simp [dictSet, dictGet?]
      · simp [dictSet, dictGet?, h, Ne.symm h]
    · rcases eq_or_ne k0 k' with rfl | h
      · simp [dictSet, dictGet?, h0]
      · simp [dictSet, dictGet?, h0, h, ih]

theorem dictGet?_eq_none_of_not_mem (d : Dict) (k : PyStr) (h : k ∉ d.map Prod.fst) :
    dictGet? d k = none := by
  induction d with
  | nil => rfl
  | cons e tl ih =>
    obtain ⟨k0, v0⟩ := e
    simp only [List.map_cons, List.mem_cons] at h
    push_neg at h
    simp [dictGet?, Ne.symm h.1, ih h.2]

theorem foldSet_cons (skip : PyStr) (dst : Dict) (e : PyStr × Val) (tl : Dict) :
    (e :: tl).foldl (fun d e => if e.1 = skip then d else dictSet d e.1 e.2) dst =
    tl.foldl (fun d e => if e.1 = skip then d else dictSet d e.1 e.2)
      (if e.1 = skip then dst else dictSet dst e.1 e.2) := rfl

theorem dictGet?_foldSet_skip (skip : PyStr) (src : Dict) : ∀ dst : Dict,
    dictGet? (src.foldl (fun d e => if e.1 = skip then d else dictSet d e.1 e.2) dst) skip =
    dictGet? dst skip := by
  induction src with
  | nil => intro dst; rfl
  | cons e tl ih =>
    intro dst
    obtain ⟨k0, v0⟩ := e
    rw [foldSet_cons]
    dsimp only
    by_cases h0 : k0 = skip
    · rw [if_pos h0]
      exact ih dst
    · rw [if_neg h0, ih, dictGet?_dictSet, if_neg (Ne.symm h0)]

theorem dictGet?_foldSet (skip k : PyStr) (hk : k ≠ skip) (src : Dict) : ∀ dst : Dict,
    (src.map Prod.fst).Nodup →
    dictGet? (src.foldl (fun d e => if e.1 = skip then d else dictSet d e.1 e.2) dst) k =
    (dictGet? src k).or (dictGet? dst k) := by
  induction src with
  | nil => intro dst _; rfl
  | cons e tl ih =>
    intro dst hnodup
    obtain ⟨k0, v0⟩ := e
    rw [List.map_cons, List.nodup_cons] at hnodup
    obtain ⟨hk0mem, hnd⟩ := hnodup
    rw [foldSet_cons]
    dsimp only
    by_cases h0 : k0 = skip
    · rw [if_pos h0, ih dst hnd]
      have hk0k : k0 ≠ k := fun e => hk (e ▸ h0)
      simp only [dictGet?]
      rw [if_neg hk0k]
    · rw [if_neg h0]
      by_cases hkk : k0 = k
      · subst hkk
        rw [ih _ hnd, dictGet?_eq_none_of_not_mem tl k0 hk0mem]
        simp [dictGet?, dictGet?_dictSet, Option.or]
      · rw [ih _ hnd]
        simp [dictGet?, dictGet?_dictSet, hkk, Ne.symm hkk]

/-- The per-step effect of the copy loop of `_apply_source_layer`: the
`"paint"` key is never written, and (for a target dict with unique keys,
as Python dicts have) every other key of the target overrides. -/
theorem dictGet?_copyNonPaint_paint (src dst : Dict) :
    dictGet? (copyNonPaint dst src) "paint".toList = dictGet? dst "paint".toList :=
  dictGet?_foldSet_skip "paint".toList src dst

theorem dictGet?_copyNonPaint (src dst : Dict) (k : PyStr) (hk : k ≠ "paint".toList)
    (hnodup : (src.map Prod.fst).Nodup) :
    dictGet? (copyNonPaint dst src) k = (dictGet? src k).or (dictGet? dst k) :=
  dictGet?_foldSet "paint".toList k hk src dst hnodup

theorem optFilter_eq_filter {α : Type _} (p : α → Option Bool) (q : α → Bool)
    (l : List α) (h : ∀ x ∈ l, p x = some (q x)) :
    optFilter p l = some (l.filter q) := by
  induction l with
  | nil => rfl
  | cons x xs ih =>
    have hx := h x (List.mem_cons_self x xs)
    have hxs : ∀ y ∈ xs, p y = some (q y) := fun y hy => h y (List.mem_cons_of_mem x hy)
    by_cases hq : q x = true <;>
      simp [optFilter, hx, ih hxs, List.filter_cons, hq]

theorem optFilter_some_forall {α : Type _} (p : α → Option Bool) (l : List α) :
    ∀ f, optFilter p l = some f → ∀ x ∈ l, ∃ b, p x = some b := by
  induction l with
  | nil => intro f _ x hx; cases hx
  | cons y ys ih =>
    intro f h x hx
    cases hpy : p y with
    | none => rw [optFilter, hpy] at h; cases h
    | some b =>
      rcases List.mem_cons.mp hx with rfl | hx'
      · exact ⟨b, hpy⟩
      · rw [optFilter, hpy] at h
        cases hr : optFilter p ys with
        | none => rw [hr] at h; cases h
        | some r => exact ih r hr x hx'

/-- Positional description of the rendering-pass loop: the band at overall
index `i + k` of `rem` gets the run count of the group-by over the filtered
prefix `styles.take (i + k)`. -/
theorem assignAux_spec (styles : List Band) :
    ∀ rem i out, assignAux styles i rem = some out →
    ∀ k b, rem[k]? = some b →
    ∃ nm filtered, b.name = some nm ∧
      optFilter (rpPred nm b.rule b.zoom_level) (styles.take (i + k)) = some filtered ∧
      out[k]? = some { b with rendering_pass := some (countRuns (filtered.map (fun st => st.name.getD Val.null))) } := by
  intro rem
  induction rem with
  | nil =>
    intro i out h k b hk
    cases hk
  | cons b0 rest ih =>
    intro i out h k b hk
    cases hnm : b0.name with
    | none => simp [assignAux, hnm] at h
    | some nm0 =>
      cases hof : optFilter (rpPred nm0 b0.rule b0.zoom_level) (styles.take i) with
      | none => simp [assignAux, hnm, hof] at h
      | some filtered0 =>
        cases har : assignAux styles (i + 1) rest with
        | none => simp [assignAux, hnm, hof, har] at h
        | some rest' =>
          have hout : out = { b0 with rendering_pass := some (countRuns (filtered0.map (fun st => st.name.getD Val.null))) } :: rest' := by
            simp [assignAux, hnm, hof, har] at h
            rw [hnm]
            exact h.symm
          cases k with
          | zero =>
            obtain rfl : b0 = b := by simpa using hk
            refine ⟨nm0, filtered0, hnm, ?_, ?_⟩
            · simpa using hof
            · rw [hout]
              simp
          | succ k' =>
            obtain ⟨nm, filtered, h1, h2, h3⟩ :=
              ih (i + 1) rest' har k' b (by simpa using hk)
            refine ⟨nm, filtered, h1, ?_, ?_⟩
            · have harith : i + (k' + 1) = i + 1 + k' := by omega
              rw [harith]
              exact h2
            · rw [hout]
              simpa using h3

/-- C1 counterexample: two bands of distinct layers A and B with the same
rule, both at zoom level 0.  The claimed count for band B is 1 (the distinct
earlier name A shares the rule and has zoom 0 ≤ 0, as `spec_rendering_pass`
computes), but the code's `zoom and ...` conjunct makes a zoom of 0 falsy,
so `process` assigns `rendering_pass` 0. -/
theorem C1_counterexample :
    assignPasses exZeroZoom =
      some [{ exBand "A".toList "R".toList 0 with rendering_pass := some 0 },
            { exBand "B".toList "R".toList 0 with rendering_pass := some 0 }] ∧
    spec_rendering_pass exZeroZoom 1 = 1 ∧
    (0 : Nat) ≠ 1 :=
  ⟨by decide, by decide, by decide⟩

/-- C1 (amended): for a band whose zoom level is a nonzero integer, the
rendering pass equals the number of consecutive name-runs among the
preceding bands of the same file that carry a *different* name, the same
rule, and a zoom level at most this band's; whenever each such name's bands
are consecutive within that selection (`hgrp`, true in particular whenever
every layer's bands sit consecutively in the file, as `process` produces
them), this equals the number of distinct such names.  Bands whose zoom
level is missing or 0 get rendering pass 0 instead (see the
counterexample). -/
theorem C1_rendering_pass_amended (styles out : List Band) (i : Nat) (b : Band)
    (hassign : assignPasses styles = some out)
    (hb : styles[i]? = some b)
    (nm : Val) (hnm : b.name = some nm)
    (z : Int) (hz : b.zoom_level = some z) (hz0 : z ≠ 0)
    (hgrp : countRuns (amendedNames styles i nm b.rule z) =
      ((amendedNames styles i nm b.rule z).dedup).length) :
    out[i]? = some { b with rendering_pass := some (((amendedNames styles i nm b.rule z).dedup).length) } := by
  obtain ⟨nm', filtered, hnm', hfilt, hout⟩ :=
    assignAux_spec styles styles 0 out hassign i b hb
  obtain rfl : nm = nm' := by
    rw [hnm] at hnm'
    injection hnm'
  rw [Nat.zero_add] at hfilt
  have hzt : zoomTruthy b.zoom_level = true := by
    rw [hz]
    simp [zoomTruthy, hz0]
  have hpw : ∀ st ∈ styles.take i,
      rpPred nm b.rule b.zoom_level st = some (amendedQualifies nm b.rule z st) := by
    intro st hst
    obtain ⟨bb, hbb⟩ := optFilter_some_forall _ _ _ hfilt st hst
    cases hstn : st.name with
    | none => simp [rpPred, hstn] at hbb
    | some n =>
      by_cases hne : n = nm
      · cases hstz : st.zoom_level <;> simp [rpPred, hstn, hne, amendedQualifies, hstz]
      · by_cases hrule : st.rule = b.rule
        · cases hstz : st.zoom_level with
          | none =>
            have hp : rpPred nm b.rule b.zoom_level st = none := by
              simp [rpPred, hstn, hne, hrule, hstz, hz, zoomTruthy, hz0]
            rw [hp] at hbb
            cases hbb
          | some z2 =>
            simp [rpPred, hstn, hne, hrule, hstz, hz, zoomTruthy, hz0, amendedQualifies]
        · cases hstz : st.zoom_level <;> simp [rpPred, hstn, hne, hrule, amendedQualifies, hstz]
  have hfeq : filtered = (styles.take i).filter (amendedQualifies nm b.rule z) := by
    have h2 := optFilter_eq_filter _ _ _ hpw
    rw [hfilt] at h2
    injection h2
  have hdef : amendedNames styles i nm b.rule z =
      ((styles.take i).filter (amendedQualifies nm b.rule z)).map
        (fun st => st.name.getD Val.null) := rfl
  rw [hout, hfeq, ← hdef, hgrp]

theorem C1_rendering_pass_amended_witness :
    assignPasses exABC = some exABCOut ∧
    exABCOut[2]? = some { exBand "C".toList "R".toList 6 with rendering_pass := some (((amendedNames exABC 2 (Val.s "C".toList) (some "R".toList) 6).dedup).length) } ∧
    ((amendedNames exABC 2 (Val.s "C".toList) (some "R".toList) 6).dedup).length = 2 ∧
    exABCOut[1]? = some { exBand "B".toList "R".toList 5 with rendering_pass := some 1 } ∧
    exABCOut[0]? = some { exBand "A".toList "R".toList 5 with rendering_pass := some 0 } := by
  refine ⟨by decide, ?_, by decide, by decide, by decide⟩
  exact C1_rendering_pass_amended exABC exABCOut 2 (exBand "C".toList "R".toList 6)
    (by decide) (by decide) (Val.s "C".toList) (by decide) 6 (by decide) (by decide)
    (by decide)

/-- C3 counterexample: for the ref chain A refs B refs C (declared in the
order [A, C, B], for which the ref pass terminates), the resolved head layer
A does not end up with the non-paint property `type` of the chain's root C:
A copied B's properties before B was itself resolved, so the inheritance is
not transitive. -/
theorem C3_counterexample :
    processRefPass 10 exRefChain = some exRefChainOut ∧
    exRefChainOut[0]? = some exHeadOut ∧
    getSafeD exHeadOut "type".toList = Val.null ∧
    getSafeD exLayerC "type".toList = Val.s "fill".toList ∧
    Val.null ≠ Val.s "fill".toList :=
  ⟨by decide, by decide, by decide, by decide, by decide⟩

/-- C3 (amended): one `_apply_source_layer` call on a layer whose truthy
`ref` matches first a target layer that itself has no truthy `ref` replaces
the layer, in place in the layer list, by the target's properties copied
over it: every non-`paint` key of the target (Python dict keys are unique)
takes the target's value, and `paint` keeps the layer's own value — `paint`
is never copied.  Inheritance happens one level at a time on the values the
referenced layer holds at that moment, and is not transitive in general. -/
theorem C3_ref_copy_step (fuel : Nat) (layers : List Dict) (i j : Nat) (l target : Dict)
    (r : Val)
    (hl : layers[i]? = some l)
    (hr : getSafeD l "ref".toList = r)
    (ht : r.truthy = true)
    (hj : findMatchIdx r 0 layers = some j)
    (htj : layers[j]? = some target)
    (hnoref : (getSafeD target "ref".toList).truthy = false)
    (hnodup : (target.map Prod.fst).Nodup) :
    applySourceLayer (fuel + 2) i layers = some (layers.set i (copyNonPaint l target)) ∧
    (∀ k, k ≠ "paint".toList → ∀ v, dictGet? target k = some v →
      dictGet? (copyNonPaint l target) k = some v) ∧
    dictGet? (copyNonPaint l target) "paint".toList = dictGet? l "paint".toList := by
  have hij : i ≠ j := by
    intro e
    subst e
    rw [hl] at htj
    obtain rfl : l = target := by injection htj
    rw [hr] at hnoref
    rw [ht] at hnoref
    exact Bool.noConfusion hnoref
  refine ⟨?_, ?_, ?_⟩
  · have hfalse : ¬ ((getSafeD target "ref".toList).truthy = true) := by
      rw [hnoref]
      exact Bool.false_ne_true
    simp only [applySourceLayer, hl]
    rw [hr]
    rw [if_pos ht, hj]
    simp only [htj]
    simp only [applySourceLayer, List.getElem?_set_ne hij, htj]
    rw [if_neg hfalse]
  · intro k hkp v hkv
    rw [dictGet?_copyNonPaint target l k hkp hnodup, hkv]
    rfl
  · exact dictGet?_copyNonPaint_paint target l

theorem C3_ref_copy_step_witness :
    applySourceLayer 2 0 [exLayerB, exLayerC] =
      some ([exLayerB, exLayerC].set 0 (copyNonPaint exLayerB exLayerC)) ∧
    dictGet? (copyNonPaint exLayerB exLayerC) "type".toList = some (Val.s "fill".toList) ∧
    dictGet? (copyNonPaint exLayerB exLayerC) "paint".toList =
      dictGet? exLayerB "paint".toList := by
  obtain ⟨h1, h2, h3⟩ := C3_ref_copy_step 0 [exLayerB, exLayerC] 0 1 exLayerB exLayerC
    (Val.s "C".toList) (by decide) (by decide) (by decide) (by decide) (by decide)
    (by decide) (by decide)
  exact ⟨h1, h2 "type".toList (by decide) (Val.s "fill".toList) (by decide), h3⟩

/-- C4 counterexample: `process` does not treat the input as read-only:
resolving the ref of layer 0 of the chain [A, C, B] rewrites the sibling
layer at index 2 in place, and the whole ref pass returns a layer list
different from the input. -/
theorem C4_counterexample :
    applySourceLayer 5 0 exRefChain = some exRefChainOut ∧
    exRefChainOut[2]? ≠ exRefChain[2]? ∧
    processRefPass 10 exRefChain = some exRefChainOut ∧
    exRefChainOut ≠ exRefChain :=
  ⟨by decide, by decide, by decide, by decide⟩

theorem refPassAux_no_refs (fuel : Nat) (layers : List Dict)
    (h : ∀ l ∈ layers, hasKeyD l "ref".toList = false) :
    ∀ n i, refPassAux fuel n i layers = some layers := by
  intro n
  induction n with
  | zero => intro i; rfl
  | succ m ih =>
    intro i
    cases hli : layers[i]? with
    | none => simp [refPassAux, hli]
    | some l =>
      have hmem : l ∈ layers := List.getElem?_mem hli
      have h' : hasKeyD l ['r', 'e', 'f'] = false := by simpa using h l hmem
      simp [refPassAux, hli, h', ih]

/-- C4 (amended): the ref-resolution pass of `process` writes the input
document in place — a layer holding a `ref` that matches a sibling's id
gains that layer's non-paint properties, and the referenced sibling layers
are themselves recursively rewritten — so the input is in general not
read-only; when no layer carries a `ref` key, the pass returns the layers
untouched.  That condition is sufficient but not necessary: a layer whose
`ref` matches no layer id is also left untouched, as the dangling-ref
example shows. -/
theorem C4_no_refs_unchanged (fuel : Nat) (layers : List Dict)
    (h : ∀ l ∈ layers, hasKeyD l "ref".toList = false) :
    processRefPass fuel layers = some layers ∧
    (processRefPass 5 exDangling = some exDangling ∧
      ∃ l ∈ exDangling, hasKeyD l "ref".toList = true) :=
  ⟨refPassAux_no_refs fuel layers h layers.length 0, by decide, by decide⟩

theorem C4_no_refs_unchanged_witness :
    processRefPass 7 [exLayerC] = some [exLayerC] ∧
    processRefPass 5 exDangling = some exDangling :=
  ⟨(C4_no_refs_unchanged 7 [exLayerC] (by decide)).1,
   (C4_no_refs_unchanged 7 [exLayerC] (by decide)).2.1⟩

/-- C10: `get_styles` on a layer without an `"id"` key fails with the
`KeyError` on `"id"` no matter what else the layer contains (in particular
even when `"type"` is also missing), and the documented
`RuntimeError("'type' not set on layer")` can only arise for layers that do
contain an `"id"` key. -/
theorem C10_missing_id_key_error (collect : Dict → Val → List PropVal) (layer : Dict) :
    (dictGet? layer "id".toList = none →
      get_styles_with collect layer = Except.error (PyErr.keyError "id".toList)) ∧
    (∀ msg, get_styles_with collect layer = Except.error (PyErr.runtimeError msg) →
      (dictGet? layer "id".toList).isSome = true) := by
  have main : dictGet? layer "id".toList = none →
      get_styles_with collect layer = Except.error (PyErr.keyError "id".toList) := by
    intro hid
    have hid' : dictGet? layer ['i', 'd'] = none := by simpa using hid
    simp [get_styles_with, hid', bind, Except.bind]
  refine ⟨main, ?_⟩
  intro msg hrun
  cases hid : dictGet? layer "id".toList with
  | none =>
    rw [main hid] at hrun
    exact absurd hrun (by simp)
  | some v => simp

theorem C10_missing_id_key_error_witness :
    dictGet? [("type".toList, Val.s "fill".toList)] "id".toList = none ∧
    get_styles_with (fun _ _ => []) [("type".toList, Val.s "fill".toList)] =
      Except.error (PyErr.keyError "id".toList) :=
  ⟨by decide,
   (C10_missing_id_key_error (fun _ _ => []) [("type".toList, Val.s "fill".toList)]).1
     (by decide)⟩

theorem C8_color_string_witness :
    getColorString "rgb(10.7,20,30)".toList = some "10,20,30,255".toList ∧
    getColorString "rgba(10,20,30,0.5)".toList = some "10,20,30,128".toList ∧
    getColorString "hsl(120, 50%, 50%)".toList = some "64,191,64,255".toList ∧
    getColorString "hsla(120, 50%, 50%, 1)".toList = some "64,191,64,255".toList :=
  ⟨(((C8_color_string "rgb(10.7,20,30)".toList
      "10.7".toList "20".toList "30".toList "0".toList
      ⟨107, 10⟩ ⟨20, 1⟩ ⟨30, 1⟩ ⟨0, 1⟩
      (by decide) (by decide) (by decide)).1
      (by decide) (by decide)).trans (by decide)),
   (((C8_color_string "rgba(10,20,30,0.5)".toList
      "10".toList "20".toList "30".toList "0.5".toList
      ⟨10, 1⟩ ⟨20, 1⟩ ⟨30, 1⟩ ⟨5, 10⟩
      (by decide) (by decide) (by decide)).2.1
      (by decide) (by decide) (by decide)).trans (by decide)),
   (((C8_color_string "hsl(120, 50%, 50%)".toList
      "120".toList "50".toList "50".toList "0".toList
      ⟨120, 1⟩ ⟨50, 1⟩ ⟨50, 1⟩ ⟨0, 1⟩
      (by decide) (by decide) (by decide)).2.2.1
      (by decide) (by decide)).trans (by decide)),
   (((C8_color_string "hsla(120, 50%, 50%, 1)".toList
      "120".toList "50".toList "50".toList "1".toList
      ⟨120, 1⟩ ⟨50, 1⟩ ⟨50, 1⟩ ⟨1, 1⟩
      (by decide) (by decide) (by decide)).2.2.2
      (by decide) (by decide) (by decide)).trans (by decide))⟩

theorem fillMissing_zoom (src dst : Band) :
    (fillMissing src dst).zoom_level = dst.zoom_level := rfl

theorem backFillRevAux_map_zoom (l : List Band) : ∀ prev : Band,
    (backFillRevAux prev l).map (fun b => b.zoom_level) =
      l.map (fun b => b.zoom_level) := by
  induction l with
  | nil => intro prev; rfl
  | cons c rest ih =>
    intro prev
    simp [backFillRevAux, ih, fillMissing_zoom]

theorem backFillRev_map_zoom (l : List Band) :
    (backFillRev l).map (fun b => b.zoom_level) = l.map (fun b => b.zoom_level) := by
  cases l with
  | nil => rfl
  | cons b rest => simp [backFillRev, backFillRevAux_map_zoom]

theorem buildBands_map_zoom (av : List PropVal) (ks : List Int) : ∀ base : Band,
    (buildBands av base ks).map (fun b => b.zoom_level) = ks.map some := by
  induction ks with
  | nil => intro base; rfl
  | cons z rest ih =>
    intro base
    simp [buildBands, ih]

theorem addKey_nodup (ks : List Int) (m : Option Int) (h : ks.Nodup) :
    (addKey ks m).Nodup := by
  cases m with
  | none => exact h
  | some m =>
    by_cases hm : m ∈ ks
    · simpa [addKey, hm] using h
    · rw [addKey, if_neg hm, List.nodup_append]
      refine ⟨h, List.nodup_singleton m, ?_⟩
      intro a ha hb
      rw [List.mem_singleton] at hb
      subst hb
      exact hm ha

theorem zoomKeys_pairwise_lt (av : List PropVal) (minz maxz : Option Int) :
    List.Pairwise (· < ·) (zoomKeys av minz maxz) := by
  have hnd : (addKey (addKey ((av.filterMap (fun v => v.zoom_level)).dedup) minz) maxz).Nodup :=
    addKey_nodup _ maxz (addKey_nodup _ minz (List.nodup_dedup _))
  have hsorted : List.Sorted (· ≤ ·) (zoomKeys av minz maxz) :=
    List.sorted_insertionSort _ _
  have hnd2 : (zoomKeys av minz maxz).Nodup :=
    (List.perm_insertionSort _ _).nodup_iff.mpr hnd
  exact (List.Pairwise.and hsorted hnd2).imp (fun h => lt_of_le_of_ne h.1 h.2)

/-- The successful outcomes of `scaleHead b rest`: the unchanged band (zoom
`None`), or the band with its scale range set from the table. -/
theorem scaleHead_cases (b : Band) (rest : List Band) (b' : Band)
    (h : scaleHead b rest = some b') :
    (b.zoom_level = none ∧ b' = b) ∨
    (∃ z mx mn, b.zoom_level = some z ∧ scaleBound z = some mx ∧
      (match rest with
       | [] => some 1
       | nxt :: _ =>
         match nxt.zoom_level with
         | some zn => scaleBound zn
         | none => none : Option Int) = some mn ∧
      b' = { b with min_scale_denom := some mn, max_scale_denom := some mx }) := by
  cases hz : b.zoom_level with
  | none =>
    left
    refine ⟨rfl, ?_⟩
    simp [scaleHead, hz] at h
    exact h.symm
  | some z =>
    right
    simp [scaleHead, hz, Option.bind_eq_some] at h
    obtain ⟨mx, hmx, mn, hmn, hb⟩ := h
    exact ⟨z, mx, mn, rfl, hmx, hmn, hb.symm⟩

theorem scaleHead_zoom (b : Band) (rest : List Band) (b' : Band)
    (h : scaleHead b rest = some b') : b'.zoom_level = b.zoom_level := by
  rcases scaleHead_cases b rest b' h with ⟨hz, rfl⟩ | ⟨z, mx, mn, hz, _, _, rfl⟩
  · rfl
  · rfl

/-- Behaviour of `_apply_scale_range` on a successful run: zoom levels are
unchanged, `max_scale_denom` comes from the band's own zoom, and
`min_scale_denom` comes from the next band's zoom — or is 1 for the last
band. -/
theorem applyScaleRange_spec : ∀ (l out : List Band), applyScaleRange l = some out →
    (out.map (fun b => b.zoom_level) = l.map (fun b => b.zoom_level)) ∧
    (∀ k bb zz, out[k]? = some bb → bb.zoom_level = some zz →
      (bb.max_scale_denom = scaleBound zz ∧
       (out[k + 1]? = none → bb.min_scale_denom = some 1) ∧
       (∀ b2 z2, out[k + 1]? = some b2 → b2.zoom_level = some z2 →
         bb.min_scale_denom = scaleBound z2))) := by
  intro l
  induction l with
  | nil =>
    intro out h
    rw [applyScaleRange] at h
    injection h with h
    subst h
    refine ⟨rfl, ?_⟩
    intro k bb zz hk
    cases hk
  | cons b rest ih =>
    intro out h
    cases hsh : scaleHead b rest with
    | none => simp [applyScaleRange, hsh] at h
    | some b' =>
      cases hr : applyScaleRange rest with
      | none => simp [applyScaleRange, hsh, hr] at h
      | some rest' =>
        have hout : out = b' :: rest' := by
          simp [applyScaleRange, hsh, hr] at h
          exact h.symm
        subst hout
        obtain ⟨ihm, ihk⟩ := ih rest' hr
        have hbz' : b'.zoom_level = b.zoom_level := scaleHead_zoom b rest b' hsh
        refine ⟨by simp [hbz', ihm], ?_⟩
        intro k bb zz hk hbbz
        cases k with
        | succ k' =>
          obtain ⟨m1, m2, m3⟩ := ihk k' bb zz (by simpa using hk) hbbz
          exact ⟨m1, fun hnone => m2 (by simpa using hnone),
            fun b2 z2 hb2 hz2 => m3 b2 z2 (by simpa using hb2) hz2⟩
        | zero =>
          obtain rfl : b' = bb := by simpa using hk
          have hbz : b.zoom_level = some zz := by rw [← hbz']; exact hbbz
          rcases scaleHead_cases b rest b' hsh with ⟨hz0, rfl⟩ | ⟨z, mx, mn, hz, hmx, hmn, rfl⟩
          · rw [hz0] at hbz
            cases hbz
          · obtain rfl : z = zz := by
              rw [hz] at hbz
              injection hbz
            refine ⟨?_, ?_, ?_⟩
            · exact hmx.symm
            · intro hnone
              have hrest' : rest' = [] := by
                cases rest' with
                | nil => rfl
                | cons x xs => simp at hnone
              have hrest : rest = [] := by
                have hlen := congrArg List.length ihm
                rw [hrest'] at hlen
                simp at hlen
                exact List.length_eq_zero.mp hlen.symm
              rw [hrest] at hmn
              injection hmn with hmn
              rw [← hmn]
            · intro b2 z2 hb2 hz2
              have hb2' : rest'[0]? = some b2 := by simpa using hb2
              have h0 : (rest.map (fun b => b.zoom_level))[0]? = some (some z2) := by
                rw [← ihm]
                simp [hb2', hz2]
              cases hrest : rest with
              | nil => rw [hrest] at h0; cases h0
              | cons nxt rest2 =>
                rw [hrest] at h0
                simp at h0
                rw [hrest] at hmn
                rw [show (match nxt :: rest2 with
                  | [] => some 1
                  | nxt :: _ =>
                    match nxt.zoom_level with
                    | some zn => scaleBound zn
                    | none => none : Option Int) =
                  (match nxt.zoom_level with
                   | some zn => scaleBound zn
                   | none => none : Option Int) from rfl, h0] at hmn
                exact hmn.symm

theorem preScaleBands_map_zoom (layer_id : Val) (av : List PropVal)
    (minz maxz : Option Int) :
    (preScaleBands layer_id av minz maxz).map (fun b => b.zoom_level) =
    (if zoomKeys av minz maxz = [] then [none]
     else (zoomKeys av minz maxz).map some) := by
  unfold preScaleBands
  by_cases hk : zoomKeys av minz maxz = []
  · simp [hk, baseStyle]
  · rw [if_neg hk, if_neg hk, List.map_reverse, backFillRev_map_zoom, List.map_reverse,
      buildBands_map_zoom, List.reverse_reverse]

theorem preScaleBands_sorted (layer_id : Val) (av : List PropVal)
    (minz maxz : Option Int) :
    List.Sorted (fun a b : Band => zKey a ≤ zKey b)
      (preScaleBands layer_id av minz maxz) := by
  have hmzk : (preScaleBands layer_id av minz maxz).map zKey =
      (if zoomKeys av minz maxz = [] then [0]
       else zoomKeys av minz maxz) := by
    have h1 : (preScaleBands layer_id av minz maxz).map zKey =
        ((preScaleBands layer_id av minz maxz).map (fun b => b.zoom_level)).map
          (fun o => o.getD 0) := by
      rw [List.map_map]
      rfl
    rw [h1, preScaleBands_map_zoom]
    by_cases hk : zoomKeys av minz maxz = []
    · simp [hk]
    · rw [if_neg hk, if_neg hk, List.map_map,
        show ((fun o : Option Int => o.getD 0) ∘ some) = id from rfl, List.map_id]
  have hple : List.Pairwise (· ≤ ·) ((preScaleBands layer_id av minz maxz).map zKey) := by
    rw [hmzk]
    by_cases hk : zoomKeys av minz maxz = []
    · simp [hk]
    · rw [if_neg hk]
      exact (zoomKeys_pairwise_lt av minz maxz).imp (fun h => le_of_lt h)
  exact (List.pairwise_map).mp hple

/-- C2: for every band sequence produced by `get_styles` in which the bands
carry zoom levels: the zoom levels are strictly ascending; every band's
`max_scale_denom` is the scale table's bound at its own zoom level; every
band's `min_scale_denom` is the table's bound at the next band's zoom level;
and the last band's `min_scale_denom` is 1.  (`get_styles_core` is the body
of `get_styles` after `all_values` collection; the statement quantifies over
every possible `all_values` list whose property names avoid the fixed band
keys, which all real property names do.) -/
theorem C2_zoom_scale_invariants (layer_id : Val) (av : List PropVal)
    (minz maxz : Option Int) (bands : List Band)
    (h : get_styles_core layer_id av minz maxz = some bands)
    (hall : ∀ b ∈ bands, (b.zoom_level).isSome = true) :
    List.Chain' (· < ·) (bands.filterMap (fun b => b.zoom_level)) ∧
    (∀ (k : Nat) (b : Band) (z : Int), bands[k]? = some b → b.zoom_level = some z →
      b.max_scale_denom = scaleBound z) ∧
    (∀ (k : Nat) (b b2 : Band) (z2 : Int), bands[k]? = some b →
      bands[k + 1]? = some b2 →
      b2.zoom_level = some z2 → b.min_scale_denom = scaleBound z2) ∧
    (∀ b : Band, bands.getLast? = some b → b.min_scale_denom = some 1) := by
  rw [get_styles_core] at h
  obtain ⟨hmap, hspec⟩ := applyScaleRange_spec _ bands h
  have hsorteq : sortBands (preScaleBands layer_id av minz maxz) =
      preScaleBands layer_id av minz maxz :=
    List.Sorted.insertionSort_eq (preScaleBands_sorted layer_id av minz maxz)
  rw [hsorteq, preScaleBands_map_zoom] at hmap
  refine ⟨?_, ?_, ?_, ?_⟩
  · by_cases hk : zoomKeys av minz maxz = []
    · rw [if_pos hk] at hmap
      cases bands with
      | nil => cases hmap
      | cons b0 tl =>
        simp at hmap
        exact absurd (hall b0 (List.mem_cons_self b0 tl)) (by simp [hmap.1])
    · rw [if_neg hk] at hmap
      have hfm : bands.filterMap (fun b => b.zoom_level) = zoomKeys av minz maxz := by
        have h1 : bands.filterMap (fun b => b.zoom_level) =
            (bands.map (fun b => b.zoom_level)).filterMap id := by
          rw [List.filterMap_map]
          rfl
        rw [h1, hmap, List.filterMap_map]
        simp
      rw [hfm]
      exact (zoomKeys_pairwise_lt av minz maxz).chain'
  · intro k b z hk hz
    exact (hspec k b z hk hz).1
  · intro k b b2 z2 hk hk2 hz2
    have hbmem : b ∈ bands := List.getElem?_mem hk
    obtain ⟨zb, hzb⟩ : ∃ zb, b.zoom_level = some zb := by
      have := hall b hbmem
      cases hbz : b.zoom_level with
      | none => rw [hbz] at this; cases this
      | some zb => exact ⟨zb, rfl⟩
    exact (hspec k b zb hk hzb).2.2 b2 z2 hk2 hz2
  · intro b hlast
    have hne : bands ≠ [] := by
      intro e
      rw [e] at hlast
      cases hlast
    have hkidx : bands[bands.length - 1]? = some b := by
      rw [← List.getLast?_eq_getElem?]
      exact hlast
    have hbmem : b ∈ bands := List.getElem?_mem hkidx
    obtain ⟨zb, hzb⟩ : ∃ zb, b.zoom_level = some zb := by
      have := hall b hbmem
      cases hbz : b.zoom_level with
      | none => rw [hbz] at this; cases this
      | some zb => exact ⟨zb, rfl⟩
    have hnone : bands[(bands.length - 1) + 1]? = none := by
      apply List.getElem?_eq_none
      have : 0 < bands.length := List.length_pos.mpr hne
      omega
    exact (hspec (bands.length - 1) b zb hkidx hzb).2.1 hnone

theorem C2_zoom_scale_invariants_witness :
    List.Chain' (· < ·) (exC2Bands.filterMap (fun b => b.zoom_level)) ∧
    (∀ (k : Nat) (b : Band) (z : Int), exC2Bands[k]? = some b → b.zoom_level = some z →
      b.max_scale_denom = scaleBound z) ∧
    (∀ (k : Nat) (b b2 : Band) (z2 : Int), exC2Bands[k]? = some b →
      exC2Bands[k + 1]? = some b2 →
      b2.zoom_level = some z2 → b.min_scale_denom = scaleBound z2) ∧
    (∀ b : Band, exC2Bands.getLast? = some b → b.min_scale_denom = some 1) :=
  C2_zoom_scale_invariants (Val.s "water".toList) exC2av none none exC2Bands
    (by decide) (by decide)

end VTStyle
